import Mathlib

/-!
Shallow embedding of the Figma extraction scripts of this repository
(`scripts/extract-figma-cards.js`, `scripts/figma-fetch.js`).

Numbers carried by Figma nodes (color channels, geometry, font sizes)
are modelled as rationals `ℚ`; JavaScript `Math.round` is Mathlib's
`round` (both are `⌊x + 1/2⌋` on the values that occur here).  JS
template interpolation `${n}` of a number is modelled by
`jsNumToString`, which prints integral rationals the way JS prints
integers; every number the claims exercise is integral.  JS `Set` is
modelled as an insertion-ordered duplicate-free list (`addSet`).
Missing / `undefined` record fields are `Option`.
-/

namespace Figma

/-- Prints a rational the way JS prints a number, restricted to the
integral case (the only case the extractor's data exercises); a
non-integral value falls back to Lean's `num/den` notation. -/
def jsNumToString (q : ℚ) : String :=
  if q.den = 1 then toString q.num else toString q

/-- Figma paint color `{r,g,b,a}`; `a` may be absent (`a = 1` default in
`figmaColorToCSS`). -/
structure FColor where
  r : ℚ
  g : ℚ
  b : ℚ
  a : Option ℚ
deriving DecidableEq, Repr

/-- One entry of a node's `fills` / `strokes` array: a paint with a
`type` tag and an optional color. -/
structure Paint where
  type : String
  color : Option FColor
deriving DecidableEq, Repr

/-- JS `Math.round` on a rational, `⌊x + 1/2⌋`, computed on the raw
numerator and denominator so that the kernel can evaluate it on concrete
inputs; `jsRound_eq` identifies it with Mathlib's `round`. -/
def jsRound (x : ℚ) : ℤ :=
  Int.fdiv (2 * x.num + x.den) (2 * x.den)

/-- The rational `x * 255`, again computed on the raw fields;
`scale255_eq` identifies it with `x * 255`. -/
def scale255 (x : ℚ) : ℚ :=
  Rat.divInt (x.num * 255) x.den

/-- The rounded channel `Math.round(ch * 255)` of the source. -/
def roundChannel (ch : ℚ) : ℤ :=
  jsRound (scale255 ch)

/-- Embedding of `figmaColorToCSS` (extract-figma-cards.js lines 24-29):
`undefined` becomes `"transparent"`, otherwise an `rgba(...)` string with
each channel rounded to `[0,255]` scale and alpha defaulted to 1. -/
def figmaColorToCSS : Option FColor → String
  | none => "transparent"
  | some c =>
      "rgba(" ++ toString (roundChannel c.r) ++ ", "
        ++ toString (roundChannel c.g) ++ ", "
        ++ toString (roundChannel c.b) ++ ", "
        ++ jsNumToString (c.a.getD 1) ++ ")"

/-- Lowercase hex digits of a natural number, most significant first,
as produced by JS `Number.prototype.toString(16)`. -/
def natHex (n : ℕ) : String :=
  String.mk (Nat.toDigits 16 n)

/-- JS `n.toString(16)` for a possibly negative integer. -/
def intHex (n : ℤ) : String :=
  if n < 0 then "-" ++ natHex n.natAbs else natHex n.toNat

/-- JS `.padStart(2, '0')` on a nonempty digit string. -/
def padStart2 (s : String) : String :=
  if s.length < 2 then "0" ++ s else s

/-- One rounded color channel as a two-digit hex byte
(`Math.round(ch * 255).toString(16).padStart(2, '0')`). -/
def hexByte (ch : ℚ) : String :=
  padStart2 (intHex (roundChannel ch))

/-- Rounded hex key `#rrggbb` used by the design-token lookup
(extract-figma-cards.js line 36); the alpha channel is not consulted. -/
def hexOf (c : FColor) : String :=
  "#" ++ hexByte c.r ++ hexByte c.g ++ hexByte c.b

/-- Fixed color table of `mapToDesignToken`
(extract-figma-cards.js lines 39-56). -/
def colorMap : List (String × String) :=
  [("#ffffff", "var(--white)"),
   ("#fcfcfc", "var(--white)"),
   ("#030303", "var(--black)"),
   ("#6b7280", "var(--gray-500)"),
   ("#374151", "var(--gray-700)"),
   ("#1f2937", "var(--gray-800)"),
   ("#f3f4f6", "var(--gray-100)"),
   ("#e5e7eb", "var(--gray-200)"),
   ("#3b82f6", "var(--blue-500)"),
   ("#1d4ed8", "var(--blue-700)"),
   ("#dbeafe", "var(--blue-100)"),
   ("#6366f1", "var(--indigo-500)"),
   ("#8b5cf6", "var(--violet-500)"),
   ("#ec4899", "var(--pink-500)"),
   ("#f472b6", "var(--pink-400)"),
   ("#fce7f3", "var(--pink-100)")]

/-- Exact-equality association lookup, modelling the JS property access
`colorMap[hex]`. -/
def lookupTok : List (String × String) → String → Option String
  | [], _ => none
  | (k, v) :: rest, h => if k = h then some v else lookupTok rest h

/-- Embedding of `mapToDesignToken` (extract-figma-cards.js lines 32-59):
missing color yields the primary-text token; otherwise an exact lookup of
the rounded hex key in `colorMap`, falling back to the raw rgba string. -/
def mapToDesignToken : Option FColor → String
  | none => "var(--fg-text)"
  | some c =>
      match lookupTok colorMap (hexOf c) with
      | some tok => tok
      | none => figmaColorToCSS (some c)

/-! ### Name slugifier

The transform `name.toLowerCase().replace(/\s+/g, '-').replace(/[^a-z0-9-]/g, '')`
used at extract-figma-cards.js lines 199, 204, 220, 232 and 278.
Characters are compared through their code points; `toLowerCase` is
modelled on the ASCII range (non-ASCII letters are stripped by the final
character class either way), and `\s` by the ASCII whitespace class. -/

/-- Characters kept by the final `[^a-z0-9-]` strip. -/
def keepChar (c : Char) : Bool :=
  (97 ≤ c.toNat && c.toNat ≤ 122) || (48 ≤ c.toNat && c.toNat ≤ 57) || c.toNat == 45

/-- ASCII lowercasing, modelling JS `toLowerCase`. -/
def lowerChar (c : Char) : Char :=
  if 65 ≤ c.toNat && c.toNat ≤ 90 then Char.ofNat (c.toNat + 32) else c

/-- Whitespace class of the regex `\s` (ASCII part). -/
def isWsChar (c : Char) : Bool :=
  c.toNat == 32 || c.toNat == 9 || c.toNat == 10 || c.toNat == 11 ||
    c.toNat == 12 || c.toNat == 13

/-- Replaces each maximal run of whitespace by a single hyphen
(`.replace(/\s+/g, '-')`); the boolean records whether the previous
character belonged to a whitespace run. -/
def collapseWs : Bool → List Char → List Char
  | _, [] => []
  | prevWs, c :: cs =>
      if isWsChar c then
        if prevWs then collapseWs true cs
        else '-' :: collapseWs true cs
      else c :: collapseWs false cs

/-- The full slug transform: lowercase, collapse whitespace runs to
hyphens, strip everything outside `[a-z0-9-]`. -/
def slugify (s : String) : String :=
  String.mk ((collapseWs false (s.data.map lowerChar)).filter keepChar)

/-! ### Text styles -/

/-- Raw `style` record of a Figma TEXT node; every field may be absent. -/
structure FigStyle where
  fontFamily : Option String
  fontSize : Option ℚ
  fontWeight : Option ℚ
  letterSpacing : Option ℚ
  lineHeightPx : Option ℚ
deriving DecidableEq, Repr

/-- A JS value that is either a number or a string; `fontWeight` in the
resolved style keeps the numeric Figma weight when present and falls back
to the string `'400'`. -/
inductive JsStrNum where
  | num (q : ℚ)
  | str (s : String)
deriving DecidableEq, Repr

/-- Template interpolation `${v}` of such a value. -/
def JsStrNum.display : JsStrNum → String
  | .num q => jsNumToString q
  | .str s => s

/-- Resolved typography record built by `getTextStyle`
(extract-figma-cards.js lines 66-72); field order is the JS object
insertion order. -/
structure ResolvedTextStyle where
  fontFamily : String
  fontSize : String
  fontWeight : JsStrNum
  letterSpacing : String
  lineHeight : String
deriving DecidableEq, Repr

/-- Value of `childSpec.textStyle` once set: `getTextStyle` returns the
empty object when the node has no `style`, else the resolved record. -/
inductive TextStyleVal where
  | emptyObj
  | resolved (r : ResolvedTextStyle)
deriving DecidableEq, Repr

/-- Embedding of `getTextStyle` (extract-figma-cards.js lines 62-73).
JS truthiness: a missing or zero `fontSize`/`letterSpacing`/`lineHeightPx`
or zero `fontWeight` takes the fallback, as does a missing or empty
`fontFamily`. -/
def getTextStyle (style : Option FigStyle) : TextStyleVal :=
  match style with
  | none => .emptyObj
  | some st =>
      .resolved
        { fontFamily :=
            match st.fontFamily with
            | some f => if f = "" then "var(--font-family-base)" else f
            | none => "var(--font-family-base)"
          fontSize :=
            match st.fontSize with
            | some s => if s = 0 then "var(--text-base-regular-size-rem)"
                        else jsNumToString s ++ "px"
            | none => "var(--text-base-regular-size-rem)"
          fontWeight :=
            match st.fontWeight with
            | some w => if w = 0 then .str "400" else .num w
            | none => .str "400"
          letterSpacing :=
            match st.letterSpacing with
            | some l => if l = 0 then "normal" else jsNumToString l ++ "px"
            | none => "normal"
          lineHeight :=
            match st.lineHeightPx with
            | some l => if l = 0 then "normal" else jsNumToString l ++ "px"
            | none => "normal" }

/-- Escapes a string for JSON (quote and backslash; the control-character
escapes of full JSON do not arise in the styles this program builds). -/
def jsonEscape (s : String) : String :=
  String.mk (s.data.foldr
    (fun c acc =>
      if c = '"' then '\\' :: '"' :: acc
      else if c = '\\' then '\\' :: '\\' :: acc
      else c :: acc) [])

/-- A JSON string literal. -/
def jsonStr (s : String) : String :=
  "\"" ++ jsonEscape s ++ "\""

/-- JSON rendering of the `fontWeight` value (a bare number when Figma
supplied one, a quoted string for the `'400'` fallback). -/
def JsStrNum.json : JsStrNum → String
  | .num q => jsNumToString q
  | .str s => jsonStr s

/-- The fingerprint `JSON.stringify(childSpec.textStyle)` added to the
typography set (extract-figma-cards.js line 163). -/
def stringifyTextStyle : TextStyleVal → String
  | .emptyObj => "\x7b\x7d"
  | .resolved r =>
      "\x7b\"fontFamily\":" ++ jsonStr r.fontFamily
        ++ ",\"fontSize\":" ++ jsonStr r.fontSize
        ++ ",\"fontWeight\":" ++ r.fontWeight.json
        ++ ",\"letterSpacing\":" ++ jsonStr r.letterSpacing
        ++ ",\"lineHeight\":" ++ jsonStr r.lineHeight
        ++ "\x7d"

/-! ### Figma nodes -/

/-- Absolute bounding box of a node. -/
structure BBox where
  x : ℚ
  y : ℚ
  width : ℚ
  height : ℚ
deriving DecidableEq, Repr

/-- Scalar fields of one Figma document node. -/
structure NodeData where
  id : String
  name : String
  type : String
  absoluteBoundingBox : Option BBox
  cornerRadius : Option ℚ
  fills : List Paint
  strokes : List Paint
  strokeWeight : Option ℚ
  style : Option FigStyle
  characters : Option String
deriving DecidableEq, Repr

/-- A Figma document node: scalar data plus the `children` array (an
absent array is the empty list). -/
inductive FNode where
  | mk (data : NodeData) (children : List FNode)

/-- Scalar data of a node. -/
def FNode.data : FNode → NodeData
  | .mk d _ => d

/-- Children of a node. -/
def FNode.children : FNode → List FNode
  | .mk _ cs => cs

/-- JS truthiness of an optional string (`undefined` and `''` are falsy). -/
def strTruthy : Option String → Bool
  | some s => s ≠ ""
  | none => false

/-- The value `o || 0` for an optional number. -/
def jsOrZero (o : Option ℚ) : ℚ := o.getD 0

/-- The value `o || 1` for an optional number (a present `0` is falsy and
also yields 1). -/
def jsOrOne (o : Option ℚ) : ℚ :=
  match o with
  | some w => if w = 0 then 1 else w
  | none => 1

/-! ### Card specifications -/

/-- Geometry recorded for one child (`x`/`y`/`width`/`height`, each
`absoluteBoundingBox?.f || 0`). -/
structure ChildDims where
  x : ℚ
  y : ℚ
  width : ℚ
  height : ℚ
deriving DecidableEq, Repr

/-- Style sub-record of a child specification. -/
structure ChildStyles where
  backgroundColor : Option String
  borderRadius : ℚ
deriving DecidableEq, Repr

/-- One flattened descendant entry (extract-figma-cards.js lines 131-148). -/
structure ChildSpec where
  id : String
  name : String
  type : String
  depth : ℕ
  dims : ChildDims
  styles : ChildStyles
  textContent : Option String
  textStyle : Option TextStyleVal
deriving DecidableEq, Repr

/-- Root dimensions sub-record. -/
structure RootDims where
  width : ℚ
  height : ℚ
deriving DecidableEq, Repr

/-- Root style sub-record. -/
structure RootStyles where
  backgroundColor : Option String
  borderRadius : ℚ
  borderWidth : ℚ
  borderColor : Option String
deriving DecidableEq, Repr

/-- The specification record built by `extractCardSpecs`
(extract-figma-cards.js lines 87-105).  The JS `Set`s for colors and
typography are insertion-ordered duplicate-free lists; `text` is declared
by the source and never filled. -/
structure Specs where
  id : String
  name : String
  type : String
  dims : RootDims
  styles : RootStyles
  children : List ChildSpec
  text : List String
  colors : List String
  typography : List String
deriving DecidableEq, Repr

/-- JS `Set.prototype.add`: appends the element unless already present. -/
def addSet (s : List String) (x : String) : List String :=
  if x ∈ s then s else s ++ [x]

/-- Whether a node is a text node carrying (truthy) characters
(`child.type === 'TEXT' && child.characters`). -/
def isTextWithChars (d : NodeData) : Bool :=
  d.type = "TEXT" && strTruthy d.characters

/-- The solid first-fill background of a node, resolved to a token
(`mapToDesignToken(fill.color)` when `fills[0].type === 'SOLID'`). -/
def solidFillBg (d : NodeData) : Option String :=
  match d.fills with
  | f :: _ => if f.type = "SOLID" then some (mapToDesignToken f.color) else none
  | [] => none

/-- The raw color string added to the colors set for a solid first fill. -/
def fillColorOcc (d : NodeData) : Option String :=
  match d.fills with
  | f :: _ => if f.type = "SOLID" then some (figmaColorToCSS f.color) else none
  | [] => none

/-- The typography fingerprint added for a text node with characters. -/
def typoOcc (d : NodeData) : Option String :=
  if isTextWithChars d then some (stringifyTextStyle (getTextStyle d.style))
  else none

/-- Conditionally add an occurrence to a set. -/
def addOcc (s : List String) : Option String → List String
  | some x => addSet s x
  | none => s

/-- The flattened entry built for one visited descendant
(extract-figma-cards.js lines 131-164, before it is pushed). -/
def mkChildSpec (depth : ℕ) (c : FNode) : ChildSpec :=
  let d := c.data
  { id := d.id
    name := d.name
    type := d.type
    depth := depth
    dims :=
      { x := jsOrZero (d.absoluteBoundingBox.map (·.x))
        y := jsOrZero (d.absoluteBoundingBox.map (·.y))
        width := jsOrZero (d.absoluteBoundingBox.map (·.width))
        height := jsOrZero (d.absoluteBoundingBox.map (·.height)) }
    styles :=
      { backgroundColor := solidFillBg d
        borderRadius := jsOrZero d.cornerRadius }
    textContent := if isTextWithChars d then d.characters else none
    textStyle := if isTextWithChars d then some (getTextStyle d.style) else none }

/-- State update for one visited descendant: record its fill color and
typography fingerprint in the sets and push its entry. -/
def pushOne (depth : ℕ) (acc : Specs) (c : FNode) : Specs :=
  { acc with
      colors := addOcc acc.colors (fillColorOcc c.data)
      typography := addOcc acc.typography (typoOcc c.data)
      children := acc.children ++ [mkChildSpec depth c] }

/-- Embedding of the recursive `traverseChildren`
(extract-figma-cards.js lines 127-171): visit each child in order, push
its entry, then recurse into its own children at depth + 1. -/
def traverseList (depth : ℕ) (acc : Specs) : List FNode → Specs
  | [] => acc
  | FNode.mk cd cch :: cs =>
      let acc1 := pushOne depth acc (FNode.mk cd cch)
      let acc2 := traverseList (depth + 1) acc1 cch
      traverseList depth acc2 cs

/-- Pre-order flattening of a forest with depth annotation: the
specification-side description of the traversal order (root's direct
children at depth 0, each node before its descendants, siblings in
order). -/
def preFlat (depth : ℕ) : List FNode → List (ℕ × FNode)
  | [] => []
  | FNode.mk cd cch :: cs =>
      (depth, FNode.mk cd cch) :: (preFlat (depth + 1) cch ++ preFlat depth cs)

/-- Number of nodes in a forest (= descendants contributed by it). -/
def descCountList : List FNode → ℕ
  | [] => 0
  | FNode.mk _ cch :: cs => 1 + descCountList cch + descCountList cs

/-- The raw color string added to the colors set for a solid first
stroke of the root. -/
def strokeColorOcc (d : NodeData) : Option String :=
  match d.strokes with
  | s :: _ => if s.type = "SOLID" then some (figmaColorToCSS s.color) else none
  | [] => none

/-- The root's resolved border color for a solid first stroke. -/
def strokeBorderColor (d : NodeData) : Option String :=
  match d.strokes with
  | s :: _ => if s.type = "SOLID" then some (mapToDesignToken s.color) else none
  | [] => none

/-- `borderWidth`: 0 unless strokes exist, then `strokeWeight || 1`. -/
def rootBorderWidth (d : NodeData) : ℚ :=
  match d.strokes with
  | _ :: _ => jsOrOne d.strokeWeight
  | [] => 0

/-- Number of solid fill/stroke color occurrences the root itself
contributes to the colors set. -/
def rootColorOccCount (d : NodeData) : ℕ :=
  (match fillColorOcc d with | some _ => 1 | none => 0) +
    (match strokeColorOcc d with | some _ => 1 | none => 0)

/-- The specification record before traversal
(extract-figma-cards.js lines 87-124): identity and dimensions, root
background/border resolution, root fill and stroke colors added to the
colors set in that order. -/
def baseSpecs (d : NodeData) : Specs :=
  { id := d.id
    name := d.name
    type := d.type
    dims :=
      { width := jsOrZero (d.absoluteBoundingBox.map (·.width))
        height := jsOrZero (d.absoluteBoundingBox.map (·.height)) }
    styles :=
      { backgroundColor := solidFillBg d
        borderRadius := jsOrZero d.cornerRadius
        borderWidth := rootBorderWidth d
        borderColor := strokeBorderColor d }
    children := []
    text := []
    colors := addOcc (addOcc [] (fillColorOcc d)) (strokeColorOcc d)
    typography := [] }

/-- Embedding of the body of `extractCardSpecs`
(extract-figma-cards.js lines 86-175) on a present document node. -/
def buildSpecs (doc : FNode) : Specs :=
  traverseList 0 (baseSpecs doc.data) doc.children

/-- The per-node API response `data.nodes[nodeId]`; its `document` may be
absent. -/
structure NodeResp where
  document : Option FNode

/-- Embedding of `extractCardSpecs` (extract-figma-cards.js lines 83-176):
`null` when the response or its document is missing. -/
def extractCardSpecs (node : Option NodeResp) : Option Specs :=
  match node with
  | none => none
  | some r =>
      match r.document with
      | none => none
      | some doc => some (buildSpecs doc)

/-! ### HTML / CSS generation -/

/-- Left fold concatenation, modelling JS `+=` string building. -/
def joinList (l : List String) : String :=
  l.foldl (· ++ ·) ""

/-- The indentation `'  '.repeat(depth + 1)` used in the HTML skeleton. -/
def indentStr (n : ℕ) : String :=
  String.mk (List.replicate (2 * n) ' ')

/-- One line of the generated HTML skeleton
(extract-figma-cards.js lines 203-212). -/
def htmlLine (child : ChildSpec) : String :=
  let childClass := slugify child.name
  let ind := indentStr (child.depth + 1)
  match child.textContent with
  | some t =>
      if t = "" then ind ++ "<div class=\"" ++ childClass ++ "\"></div>\n"
      else ind ++ "<span class=\"" ++ childClass ++ "\">" ++ t ++ "</span>\n"
  | none => ind ++ "<div class=\"" ++ childClass ++ "\"></div>\n"

/-- Embedding of `generateHTMLStructure`
(extract-figma-cards.js lines 198-216). -/
def generateHTMLStructure (specs : Specs) : String :=
  let mainClass := slugify specs.name
  "<div class=\"" ++ mainClass ++ "\">\n"
    ++ joinList (specs.children.map htmlLine)
    ++ "</div>"

/-- The CSS declarations contributed by a child's text style: one literal
`prop: value;` line per entry of the JS object, so the property names are
the JS keys (`fontFamily`, `fontSize`, ...), not kebab-case CSS names. -/
def textStyleCSS : Option TextStyleVal → String
  | none => ""
  | some .emptyObj => ""
  | some (.resolved r) =>
      "  fontFamily: " ++ r.fontFamily ++ ";\n"
        ++ "  fontSize: " ++ r.fontSize ++ ";\n"
        ++ "  fontWeight: " ++ r.fontWeight.display ++ ";\n"
        ++ "  letterSpacing: " ++ r.letterSpacing ++ ";\n"
        ++ "  lineHeight: " ++ r.lineHeight ++ ";\n"

/-- The root rule block of `generateCSSClasses`
(extract-figma-cards.js lines 222-229). -/
def rootBlockCSS (specs : Specs) : String :=
  let mainClass := slugify specs.name
  "." ++ mainClass ++ " \x7b\n"
    ++ "  width: " ++ jsNumToString specs.dims.width ++ "px;\n"
    ++ "  height: " ++ jsNumToString specs.dims.height ++ "px;\n"
    ++ (match specs.styles.backgroundColor with
        | some bg => "  background-color: " ++ bg ++ ";\n"
        | none => "")
    ++ (if specs.styles.borderRadius ≠ 0 then
          "  border-radius: " ++ jsNumToString specs.styles.borderRadius ++ "px;\n"
        else "")
    ++ (if specs.styles.borderWidth ≠ 0 then
          "  border-width: " ++ jsNumToString specs.styles.borderWidth ++ "px;\n"
        else "")
    ++ (match specs.styles.borderColor with
        | some bc => "  border-color: " ++ bc ++ ";\n"
        | none => "")
    ++ "\x7d\n\n"

/-- One child rule block of `generateCSSClasses`
(extract-figma-cards.js lines 231-247). -/
def childBlockCSS (mainClass : String) (child : ChildSpec) : String :=
  let childClass := slugify child.name
  "." ++ mainClass ++ " ." ++ childClass ++ " \x7b\n"
    ++ "  position: absolute;\n"
    ++ "  left: " ++ jsNumToString child.dims.x ++ "px;\n"
    ++ "  top: " ++ jsNumToString child.dims.y ++ "px;\n"
    ++ "  width: " ++ jsNumToString child.dims.width ++ "px;\n"
    ++ "  height: " ++ jsNumToString child.dims.height ++ "px;\n"
    ++ (match child.styles.backgroundColor with
        | some bg => "  background-color: " ++ bg ++ ";\n"
        | none => "")
    ++ (if child.styles.borderRadius ≠ 0 then
          "  border-radius: " ++ jsNumToString child.styles.borderRadius ++ "px;\n"
        else "")
    ++ textStyleCSS child.textStyle
    ++ "\x7d\n\n"

/-- Embedding of `generateCSSClasses`
(extract-figma-cards.js lines 219-250). -/
def generateCSSClasses (specs : Specs) : String :=
  rootBlockCSS specs
    ++ joinList (specs.children.map (childBlockCSS (slugify specs.name)))

/-- Boolean prefix test on character lists. -/
def startsList : List Char → List Char → Bool
  | [], _ => true
  | _ :: _, [] => false
  | a :: as, b :: bs => a == b && startsList as bs

/-- Boolean substring test on character lists. -/
def subList (pat : List Char) : List Char → Bool
  | [] => pat.isEmpty
  | c :: rest => startsList pat (c :: rest) || subList pat rest

/-- Whether `pat` occurs as a contiguous substring of `s`. -/
def containsStr (s pat : String) : Bool :=
  subList pat.data s.data

/-! ### Batch driver of the card extractor

`extractCardSpecifications` (extract-figma-cards.js lines 253-314):
iterate the node-ID list, per ID fetch the node and, when a
specification results, write `<cardName>-specs.json` and collect it;
a thrown fetch error is caught per ID.  After the loop one summary file
is written.  The network and the clock are parameters (`fetch` maps a
node ID to a response or an error; `now` is the ISO timestamp);
filesystem writes are the returned list, in write order. -/

/-- The per-card output object built by `generateSpecFile`
(extract-figma-cards.js lines 179-195). -/
structure SpecOut where
  cardName : String
  extractedAt : String
  specifications : Specs
  tokenColors : List String
  tokenTypography : List String
  htmlStructure : String
  cssClasses : String
deriving DecidableEq

/-- One summary entry (extract-figma-cards.js lines 301-306). -/
structure SummaryCard where
  name : String
  children : ℕ
  colors : ℕ
  typography : ℕ
deriving DecidableEq

/-- The `extraction-summary.json` payload. -/
structure SummaryOut where
  extractedAt : String
  fileId : String
  totalCards : ℕ
  cards : List SummaryCard
deriving DecidableEq

/-- A file written by the batch driver. -/
inductive OutFile where
  | specFile (path : String) (content : SpecOut)
  | summaryFile (content : SummaryOut)
deriving DecidableEq

/-- Embedding of `generateSpecFile`. -/
def generateSpecFile (now : String) (specs : Specs) (cardName : String) : SpecOut :=
  { cardName := cardName
    extractedAt := now
    specifications := specs
    tokenColors := specs.colors
    tokenTypography := specs.typography
    htmlStructure := generateHTMLStructure specs
    cssClasses := generateCSSClasses specs }

/-- Loop state: files written so far and the collected `allSpecs`. -/
structure BatchState where
  files : List OutFile
  allSpecs : List SpecOut
deriving DecidableEq

/-- One iteration of the `for (const nodeId of nodeIds)` loop with its
`try/catch`: a fetch error, a missing node, or a null specification all
leave the state unchanged except that only the first is an error path. -/
def processNode (now : String) (fetch : String → Except String (Option NodeResp))
    (st : BatchState) (nodeId : String) : BatchState :=
  match fetch nodeId with
  | .error _ => st
  | .ok resp =>
      match extractCardSpecs resp with
      | none => st
      | some specs =>
          let cardName := slugify specs.name
          let sf := generateSpecFile now specs cardName
          { files := st.files ++ [.specFile (cardName ++ "-specs.json") sf]
            allSpecs := st.allSpecs ++ [sf] }

/-- The summary file produced after the loop. -/
def mkSummary (now fileId : String) (allSpecs : List SpecOut) : SummaryOut :=
  { extractedAt := now
    fileId := fileId
    totalCards := allSpecs.length
    cards := allSpecs.map fun sf =>
      { name := sf.cardName
        children := sf.specifications.children.length
        colors := sf.tokenColors.length
        typography := sf.tokenTypography.length } }

/-- Embedding of `extractCardSpecifications`: the ordered list of files
the run writes. -/
def runBatch (now fileId : String) (fetch : String → Except String (Option NodeResp))
    (nodeIds : List String) : List OutFile :=
  let st := nodeIds.foldl (processNode now fetch) ⟨[], []⟩
  st.files ++ [.summaryFile (mkSummary now fileId st.allSpecs)]

/-! ### Full-file exporter

`main` of figma-fetch.js (lines 78-124): five endpoint fetches joined by
`Promise.all`, where only the variables fetch is wrapped in a `.catch`
that downgrades its failure to an inline `{error: message}` object; the
join then writes the five output files.  Each fetch outcome is a
parameter of type `Except`. -/

/-- Destructured successful `/files/:key` response. -/
structure FileResp where
  document : String
  name : String
  lastModified : String
  version : String
  role : String
deriving DecidableEq

/-- Content of the variables output file after the `.catch`. -/
inductive VarPayload where
  | payload (raw : String)
  | errObj (message : String)
deriving DecidableEq

/-- Content of one exported file. -/
inductive ExportContent where
  | fileDoc (meta : FileResp) (fetchedAt : String)
  | rawJson (s : String)
  | varJson (v : VarPayload)
deriving DecidableEq

/-- Embedding of the join-and-write phase of figma-fetch.js `main`
(lines 93-107): an error on the file, styles, components, or comments
fetch fails the whole run (no writes), while a variables error is caught
and serialized inline. -/
def runExport (fileKey now : String)
    (fileRes : Except String FileResp)
    (stylesRes compRes : Except String String)
    (varRes : Except String String)
    (comRes : Except String String) :
    Except String (List (String × ExportContent)) := do
  let f ← fileRes
  let s ← stylesRes
  let c ← compRes
  let v := match varRes with
    | .ok d => VarPayload.payload d
    | .error e => VarPayload.errObj e
  let m ← comRes
  pure
    [("file-" ++ fileKey ++ ".json", .fileDoc f now),
     ("styles-" ++ fileKey ++ ".json", .rawJson s),
     ("components-" ++ fileKey ++ ".json", .rawJson c),
     ("variables-" ++ fileKey ++ ".json", .varJson v),
     ("comments-" ++ fileKey ++ ".json", .rawJson m)]

/-! ### Concrete inputs used by witnesses and counterexamples -/

/-- `c'` differs from `c` by `1/255` in exactly one of the three color
channels. -/
def perturbOne (c c' : FColor) : Prop :=
  ∃ δ : ℚ, (δ = 1/255 ∨ δ = -(1/255)) ∧
    (c' = { c with r := c.r + δ } ∨ c' = { c with g := c.g + δ } ∨
      c' = { c with b := c.b + δ })

/-- Placeholder child entry used as the default of `List.getD`. -/
def cDefault : ChildSpec :=
  { id := "", name := "", type := "", depth := 0
    dims := { x := 0, y := 0, width := 0, height := 0 }
    styles := { backgroundColor := none, borderRadius := 0 }
    textContent := none, textStyle := none }

/-- Plain rectangle child of the end-to-end scenario
(x=10, y=10, w=100, h=20). -/
def c1Rect : FNode :=
  .mk { id := "1:2", name := "Chip", type := "RECTANGLE"
        absoluteBoundingBox := some ⟨10, 10, 100, 20⟩
        cornerRadius := none, fills := [], strokes := []
        strokeWeight := none, style := none, characters := none } []

/-- Text child of the end-to-end scenario
(characters "Balance", fontSize 24, fontWeight 700). -/
def c1Text : FNode :=
  .mk { id := "1:3", name := "Balance Label", type := "TEXT"
        absoluteBoundingBox := some ⟨10, 40, 100, 30⟩
        cornerRadius := none, fills := [], strokes := []
        strokeWeight := none
        style := some { fontFamily := some "Inter", fontSize := some 24
                        fontWeight := some 700, letterSpacing := none
                        lineHeightPx := none }
        characters := some "Balance" } []

/-- Root of the end-to-end scenario: cornerRadius 16, one solid white
fill, the two children above. -/
def c1Root : FNode :=
  .mk { id := "1:1", name := "Balance Card", type := "FRAME"
        absoluteBoundingBox := some ⟨0, 0, 320, 180⟩
        cornerRadius := some 16
        fills := [{ type := "SOLID", color := some ⟨1, 1, 1, some 1⟩ }]
        strokes := [], strokeWeight := none, style := none
        characters := none }
    [c1Rect, c1Text]

/-- Small document node for the batch-driver witness. -/
def c3Node : FNode :=
  .mk { id := "9:1", name := "Pie", type := "FRAME"
        absoluteBoundingBox := none, cornerRadius := none
        fills := [], strokes := [], strokeWeight := none
        style := none, characters := none } []

/-- Witness network: the second hardcoded node ID answers HTTP 403. -/
def c3Fetch : String → Except String (Option NodeResp) :=
  fun i => if i = "21:5360" then .error "Figma API error: Forbidden"
           else .ok (some ⟨some c3Node⟩)

/-- Channel values fully saturated and zero: witness color for C5. -/
def c5W : FColor := ⟨1, 0, 1, some 1⟩

/-- The gray-500 table color `#6b7280` as exact channel fractions. -/
def c6Base : FColor :=
  ⟨Rat.divInt 107 255, Rat.divInt 114 255, Rat.divInt 128 255, none⟩

/-- `c6Base` with the red channel raised by `1/255` (rounds to
`#6c7280`, missing from the table). -/
def c6Pert : FColor :=
  ⟨Rat.divInt 108 255, Rat.divInt 114 255, Rat.divInt 128 255, none⟩

/-- The specification the end-to-end scenario evaluates to (established
against `buildSpecs` in `c1_build_eval`). -/
def c1SpecsVal : Specs :=
  { id := "1:1", name := "Balance Card", type := "FRAME"
    dims := { width := 320, height := 180 }
    styles := { backgroundColor := some "var(--white)", borderRadius := 16
                borderWidth := 0, borderColor := none }
    children := [mkChildSpec 0 c1Rect, mkChildSpec 0 c1Text]
    text := []
    colors := ["rgba(255, 255, 255, 1)"]
    typography :=
      ["\x7b\"fontFamily\":\"Inter\",\"fontSize\":\"24px\",\"fontWeight\":700,\"letterSpacing\":\"normal\",\"lineHeight\":\"normal\"\x7d"] }

/-- Opaque white. -/
def c10A : FColor := ⟨1, 1, 1, some 1⟩

/-- Half-transparent white. -/
def c10B : FColor := ⟨1, 1, 1, some (Rat.divInt 1 2)⟩

end Figma

namespace Figma

/-! ## Bridge lemmas between the executable arithmetic and Mathlib -/

/-- The raw-field scaling equals multiplication by 255. -/
theorem scale255_eq (x : ℚ) : scale255 x = x * 255 := by
  rw [scale255, Rat.divInt_eq_div]
  conv_rhs => rw [← Rat.num_div_den x]
  push_cast
  ring

/-- The raw-field rounding is Mathlib's `round`. -/
theorem jsRound_eq (x : ℚ) : jsRound x = round x := by
  have hdpos : (0:ℚ) < (x.den : ℚ) := by exact_mod_cast x.pos
  have hdz : ((2 * x.den : ℕ) : ℤ) = 2 * (x.den : ℤ) := by push_cast; ring
  rw [jsRound, Int.fdiv_eq_ediv _ (by positivity), round_eq, ← hdz,
    ← Rat.floor_intCast_div_natCast]
  congr 1
  have hd2 : (0:ℚ) < ((2 * x.den : ℕ) : ℚ) := by
    have h2 : 0 < 2 * x.den := by have := x.pos; omega
    exact_mod_cast h2
  rw [div_eq_iff (ne_of_gt hd2)]
  have hx : (x.num : ℚ) = x * (x.den : ℚ) :=
    (div_eq_iff (ne_of_gt hdpos)).mp (Rat.num_div_den x)
  push_cast
  rw [hx]
  ring

/-- `roundChannel` computes `Math.round(ch * 255)` in the sense of
Mathlib's `round`. -/
theorem roundChannel_eq (ch : ℚ) : roundChannel ch = round (ch * 255) := by
  rw [roundChannel, jsRound_eq, scale255_eq]

/-- Rounded scaled channels stay inside the byte range. -/
theorem round_channel_bounds {q : ℚ} (h0 : 0 ≤ q) (h1 : q ≤ 1) :
    0 ≤ round (q * 255) ∧ round (q * 255) ≤ 255 := by
  rw [round_eq]
  constructor
  · rw [Int.le_floor]
    push_cast
    nlinarith
  · rw [Int.floor_le_iff]
    push_cast
    nlinarith

/-! ## Lookup-table lemmas -/

/-- A successful lookup returns a pair of the table. -/
theorem lookupTok_mem {l : List (String × String)} {k v : String}
    (h : lookupTok l k = some v) : (k, v) ∈ l := by
  induction l with
  | nil => simp [lookupTok] at h
  | cons p rest ih =>
      obtain ⟨a, b⟩ := p
      rw [lookupTok] at h
      by_cases hak : a = k
      · subst hak
        rw [if_pos rfl] at h
        obtain rfl : b = v := by injection h
        exact List.mem_cons_self _ _
      · rw [if_neg hak] at h
        exact List.mem_cons_of_mem _ (ih h)

/-- A failed lookup means no key of the table equals the query. -/
theorem lookupTok_none_keys {l : List (String × String)} {k : String}
    (h : lookupTok l k = none) : ∀ p ∈ l, p.1 ≠ k := by
  induction l with
  | nil => intro p hp; simp at hp
  | cons q rest ih =>
      obtain ⟨a, b⟩ := q
      rw [lookupTok] at h
      by_cases hak : a = k
      · rw [if_pos hak] at h; exact absurd h (by simp)
      · rw [if_neg hak] at h
        intro p hp
        rcases List.mem_cons.mp hp with hhd | htl
        · subst hhd; exact hak
        · exact ih h p htl

/-- A key present in the table is found by the lookup. -/
theorem lookupTok_isSome_of_mem {l : List (String × String)} {k : String}
    (h : ∃ p ∈ l, p.1 = k) : ∃ v, lookupTok l k = some v := by
  induction l with
  | nil => obtain ⟨p, hp, _⟩ := h; simp at hp
  | cons q rest ih =>
      obtain ⟨a, b⟩ := q
      by_cases hak : a = k
      · exact ⟨b, by rw [lookupTok, if_pos hak]⟩
      · obtain ⟨p, hp, hpk⟩ := h
        rcases List.mem_cons.mp hp with hhd | htl
        · exact absurd hpk (by rw [hhd]; exact hak)
        · obtain ⟨v, hv⟩ := ih ⟨p, htl, hpk⟩
          exact ⟨v, by rw [lookupTok, if_neg hak, hv]⟩

/-! ## Claim theorems -/

/-- C5: for a Figma color with channels in `[0,1]`, the `rgba` output of
the color resolver carries exactly `round(channel * 255)` in each of its
three color positions, and each of those integers lies in `[0,255]`. -/
theorem c5_rgba_channels (c : FColor)
    (hr : 0 ≤ c.r ∧ c.r ≤ 1) (hg : 0 ≤ c.g ∧ c.g ≤ 1)
    (hb : 0 ≤ c.b ∧ c.b ≤ 1) :
    figmaColorToCSS (some c)
      = "rgba(" ++ toString (round (c.r * 255)) ++ ", "
          ++ toString (round (c.g * 255)) ++ ", "
          ++ toString (round (c.b * 255)) ++ ", "
          ++ jsNumToString (c.a.getD 1) ++ ")"
    ∧ (0 ≤ round (c.r * 255) ∧ round (c.r * 255) ≤ 255)
    ∧ (0 ≤ round (c.g * 255) ∧ round (c.g * 255) ≤ 255)
    ∧ (0 ≤ round (c.b * 255) ∧ round (c.b * 255) ≤ 255) := by
  refine ⟨?_, round_channel_bounds hr.1 hr.2, round_channel_bounds hg.1 hg.2,
    round_channel_bounds hb.1 hb.2⟩
  rw [figmaColorToCSS, roundChannel_eq, roundChannel_eq, roundChannel_eq]

/-- Witness for C5: the theorem applied to the concrete color
`(1, 0, 1, a=1)`, whose rgba output evaluates to
`rgba(255, 0, 255, 1)`. -/
theorem c5_rgba_channels_witness :
    ((0:ℚ) ≤ c5W.r ∧ c5W.r ≤ 1)
    ∧ (0 ≤ round (c5W.r * 255) ∧ round (c5W.r * 255) ≤ 255)
    ∧ figmaColorToCSS (some c5W) = "rgba(255, 0, 255, 1)" :=
  ⟨by constructor <;> norm_num [c5W],
   (c5_rgba_channels c5W
      (by constructor <;> norm_num [c5W])
      (by constructor <;> norm_num [c5W])
      (by constructor <;> norm_num [c5W])).2.1,
   by decide⟩

/-- C7: a missing color input resolves to the primary-text design token,
a fixed policy constant. -/
theorem c7_missing_color_token : mapToDesignToken none = "var(--fg-text)" := rfl

/-- C6: the design-token lookup for a color perturbed by `1/255` in one
channel is exact-match only: a token is returned precisely when the
rounded hex key occurs in the fixed table (membership and lookup success
coincide), and when no key matches, the resolver returns the raw rgba
string. -/
theorem c6_exact_hex_match (c c' : FColor) (h : perturbOne c c') :
    ((∃ p ∈ colorMap, p.1 = hexOf c') ↔ ∃ v, lookupTok colorMap (hexOf c') = some v)
    ∧ (∀ v, lookupTok colorMap (hexOf c') = some v →
        (hexOf c', v) ∈ colorMap ∧ mapToDesignToken (some c') = v)
    ∧ (lookupTok colorMap (hexOf c') = none →
        (∀ p ∈ colorMap, p.1 ≠ hexOf c') ∧
          mapToDesignToken (some c') = figmaColorToCSS (some c')) := by
  refine ⟨⟨fun hx => lookupTok_isSome_of_mem hx, ?_⟩, ?_, ?_⟩
  · rintro ⟨v, hv⟩
    exact ⟨(hexOf c', v), lookupTok_mem hv, rfl⟩
  · intro v hv
    refine ⟨lookupTok_mem hv, ?_⟩
    rw [mapToDesignToken, hv]
  · intro hn
    refine ⟨lookupTok_none_keys hn, ?_⟩
    rw [mapToDesignToken, hn]

/-- Witness for C6: raising the red channel of the table color `#6b7280`
by `1/255` gives `#6c7280`, one unit away from a table key; the resolver
falls back to the raw rgba string instead of matching by proximity. -/
theorem c6_exact_hex_match_witness :
    perturbOne c6Base c6Pert
    ∧ mapToDesignToken (some c6Pert) = figmaColorToCSS (some c6Pert) := by
  have hp : perturbOne c6Base c6Pert := by
    refine ⟨1/255, Or.inl rfl, Or.inl ?_⟩
    have hr : c6Base.r + 1/255 = c6Pert.r := by
      rw [c6Pert, c6Base]
      norm_num [Rat.divInt_eq_div]
    rw [hr]
    rfl
  refine ⟨hp, ((c6_exact_hex_match c6Base c6Pert hp).2.2 (by decide)).2⟩

/-- C10: token resolution ignores the alpha channel: two colors equal in
r, g, b produce the same hex key, and whenever that key is in the table
both resolve to the same (opaque) token. -/
theorem c10_alpha_insensitive (c₁ c₂ : FColor)
    (hr : c₁.r = c₂.r) (hg : c₁.g = c₂.g) (hb : c₁.b = c₂.b) :
    hexOf c₁ = hexOf c₂
    ∧ (∀ tok, lookupTok colorMap (hexOf c₁) = some tok →
        mapToDesignToken (some c₁) = tok ∧ mapToDesignToken (some c₂) = tok) := by
  have hh : hexOf c₁ = hexOf c₂ := by rw [hexOf, hexOf, hr, hg, hb]
  refine ⟨hh, fun tok htok => ⟨?_, ?_⟩⟩
  · rw [mapToDesignToken, htok]
  · rw [mapToDesignToken, ← hh, htok]

/-- Witness for C10: opaque white and half-transparent white both resolve
to `var(--white)` although their alpha channels differ. -/
theorem c10_alpha_insensitive_witness :
    mapToDesignToken (some c10A) = "var(--white)"
    ∧ mapToDesignToken (some c10B) = "var(--white)"
    ∧ c10A.a ≠ c10B.a := by
  have h := (c10_alpha_insensitive c10A c10B rfl rfl rfl).2 "var(--white)" (by decide)
  exact ⟨h.1, h.2, by decide⟩

/-- C4: in the full-file exporter, an error on the file, styles,
components, or comments fetch fails the whole joined run (no files
written), while an error on the variables fetch alone is downgraded to an
inline error object serialized into the variables output file of an
otherwise normal run. -/
theorem c4_export_error_policy :
    (∀ fk now e srs crs vrs mrs,
        runExport fk now (.error e) srs crs vrs mrs = .error e)
    ∧ (∀ fk now f e crs vrs mrs,
        runExport fk now (.ok f) (.error e) crs vrs mrs = .error e)
    ∧ (∀ fk now f s e vrs mrs,
        runExport fk now (.ok f) (.ok s) (.error e) vrs mrs = .error e)
    ∧ (∀ fk now f s c vrs e,
        runExport fk now (.ok f) (.ok s) (.ok c) vrs (.error e) = .error e)
    ∧ (∀ fk now f s c ve m,
        runExport fk now (.ok f) (.ok s) (.ok c) (.error ve) (.ok m)
          = .ok [("file-" ++ fk ++ ".json", .fileDoc f now),
                 ("styles-" ++ fk ++ ".json", .rawJson s),
                 ("components-" ++ fk ++ ".json", .rawJson c),
                 ("variables-" ++ fk ++ ".json", .varJson (.errObj ve)),
                 ("comments-" ++ fk ++ ".json", .rawJson m)]) :=
  ⟨fun _ _ _ _ _ _ _ => rfl, fun _ _ _ _ _ _ _ => rfl,
   fun _ _ _ _ _ _ _ => rfl, fun _ _ _ _ _ _ _ => rfl,
   fun _ _ _ _ _ _ _ => rfl⟩

/-! ## Slugifier lemmas -/

/-- A kept character is already lowercase (not in the `A`-`Z` range). -/
theorem lowerChar_of_keep {c : Char} (h : keepChar c = true) :
    lowerChar c = c := by
  rw [keepChar, Bool.or_eq_true, Bool.or_eq_true] at h
  rw [lowerChar, if_neg]
  simp only [Bool.and_eq_true, decide_eq_true_eq, not_and]
  rcases h with (h | h) | h
  · simp only [Bool.and_eq_true, decide_eq_true_eq] at h
    omega
  · simp only [Bool.and_eq_true, decide_eq_true_eq] at h
    omega
  · simp only [beq_iff_eq] at h
    omega

/-- A kept character is not whitespace. -/
theorem not_ws_of_keep {c : Char} (h : keepChar c = true) :
    isWsChar c = false := by
  rw [keepChar, Bool.or_eq_true, Bool.or_eq_true] at h
  rw [isWsChar]
  simp only [Bool.or_eq_false_iff, beq_eq_false_iff_ne, ne_eq]
  rcases h with (h | h) | h
  · simp only [Bool.and_eq_true, decide_eq_true_eq] at h
    omega
  · simp only [Bool.and_eq_true, decide_eq_true_eq] at h
    omega
  · simp only [beq_iff_eq] at h
    omega

/-- Mapping a function that fixes every element is the identity. -/
theorem map_id_of_fixes {l : List Char} {f : Char → Char}
    (h : ∀ c ∈ l, f c = c) : l.map f = l := by
  induction l with
  | nil => rfl
  | cons c cs ih =>
      rw [List.map_cons, h c (List.mem_cons_self c cs),
        ih fun d hd => h d (List.mem_cons_of_mem c hd)]

/-- Whitespace collapsing is the identity on whitespace-free input. -/
theorem collapseWs_of_no_ws {l : List Char} (b : Bool)
    (h : ∀ c ∈ l, isWsChar c = false) : collapseWs b l = l := by
  induction l generalizing b with
  | nil => rfl
  | cons c cs ih =>
      rw [collapseWs, if_neg (by rw [h c (List.mem_cons_self c cs)]; simp),
        ih false fun d hd => h d (List.mem_cons_of_mem c hd)]

/-- Filtering keeps everything when every element passes. -/
theorem filter_id_of_all {l : List Char}
    (h : ∀ c ∈ l, keepChar c = true) : l.filter keepChar = l := by
  induction l with
  | nil => rfl
  | cons c cs ih =>
      rw [List.filter_cons_of_pos (h c (List.mem_cons_self c cs)),
        ih fun d hd => h d (List.mem_cons_of_mem c hd)]

/-- Every character of a slug passes the keep filter. -/
theorem keep_of_mem_slug {s : String} {c : Char}
    (h : c ∈ (slugify s).data) : keepChar c = true := by
  rw [slugify] at h
  exact List.of_mem_filter h

/-- C8: the slugifier is idempotent — slugifying a slug returns it
unchanged. -/
theorem c8_slugify_idempotent (s : String) :
    slugify (slugify s) = slugify s := by
  have hkeep : ∀ c ∈ (slugify s).data, keepChar c = true :=
    fun c hc => keep_of_mem_slug hc
  conv_lhs => rw [slugify]
  rw [map_id_of_fixes fun c hc => lowerChar_of_keep (hkeep c hc)]
  rw [collapseWs_of_no_ws false fun c hc => not_ws_of_keep (hkeep c hc)]
  rw [filter_id_of_all hkeep]

/-! ## Traversal lemmas -/

/-- The pre-order flattening of a forest has one entry per node. -/
theorem preFlat_length (d : ℕ) (l : List FNode) :
    (preFlat d l).length = descCountList l := by
  induction d, l using preFlat.induct with
  | case1 d => simp [preFlat, descCountList]
  | case2 d cd cch cs ih1 ih2 =>
      simp [preFlat, descCountList, ih1, ih2]
      omega

/-- Depth annotations never drop below the depth a flattening starts at
(depths are non-decreasing down every traversal path). -/
theorem preFlat_depth_le (d : ℕ) (l : List FNode) :
    ∀ p ∈ preFlat d l, d ≤ p.1 := by
  induction d, l using preFlat.induct with
  | case1 d => intro p hp; simp [preFlat] at hp
  | case2 d cd cch cs ih1 ih2 =>
      intro p hp
      rw [preFlat, List.mem_cons, List.mem_append] at hp
      rcases hp with rfl | hp | hp
      · exact le_refl d
      · exact Nat.le_of_succ_le (ih1 p hp)
      · exact ih2 p hp

/-- Folding one optional occurrence before a list of occurrences. -/
theorem foldl_addSet_occ (o : Option String) (rest : List String)
    (s : List String) :
    (match o with | some x => x :: rest | none => rest).foldl addSet s
      = rest.foldl addSet (addOcc s o) := by
  cases o <;> simp [addOcc]

/-- Closed form of the traversal: the state after `traverseChildren` is
the input state with the pre-order flattening appended to `children` and
the fill-color / typography occurrence lists folded into the two sets;
every other field is untouched. -/
theorem traverseList_eq (d : ℕ) (acc : Specs) (l : List FNode) :
    traverseList d acc l =
      { acc with
          children :=
            acc.children ++ (preFlat d l).map fun p => mkChildSpec p.1 p.2
          colors :=
            ((preFlat d l).filterMap fun p => fillColorOcc p.2.data).foldl
              addSet acc.colors
          typography :=
            ((preFlat d l).filterMap fun p => typoOcc p.2.data).foldl
              addSet acc.typography } := by
  induction d, l using preFlat.induct generalizing acc with
  | case1 d => simp [traverseList, preFlat]
  | case2 d cd cch cs ih1 ih2 =>
      rw [traverseList, ih2, ih1]
      rcases hf : fillColorOcc cd with _ | x <;> rcases ht : typoOcc cd with _ | y <;>
        simp only [preFlat, pushOne, FNode.data, hf, ht, addOcc, List.map_cons,
          List.map_append, List.filterMap_cons, List.filterMap_append,
          List.foldl_append, List.foldl_cons, List.append_assoc,
          List.singleton_append, List.cons_append, List.nil_append]

/-- C2: flattening appends exactly one entry per descendant, in pre-order
depth-first order with the annotated nesting depth (root children at
depth 0), so the child count equals the descendant count and depths are
non-decreasing down every traversal path. -/
theorem c2_preorder_flattening (n : FNode) :
    (buildSpecs n).children
        = (preFlat 0 n.children).map (fun p => mkChildSpec p.1 p.2)
    ∧ (buildSpecs n).children.length = descCountList n.children
    ∧ (∀ p ∈ preFlat 0 n.children, (mkChildSpec p.1 p.2).depth = p.1)
    ∧ (∀ (d : ℕ) (l : List FNode), ∀ p ∈ preFlat d l, d ≤ p.1) := by
  have hb : (buildSpecs n).children
      = (preFlat 0 n.children).map (fun p => mkChildSpec p.1 p.2) := by
    rw [buildSpecs, traverseList_eq]
    simp [baseSpecs]
  exact ⟨hb, by rw [hb, List.length_map, preFlat_length],
    fun p _ => rfl, preFlat_depth_le⟩

/-! ## Set lemmas for C9 -/

/-- Adding to a JS set grows it by at most one element. -/
theorem addSet_length_le (s : List String) (x : String) :
    (addSet s x).length ≤ s.length + 1 := by
  rw [addSet]
  split <;> simp

/-- Adding to a JS set preserves distinctness. -/
theorem addSet_nodup {s : List String} (x : String) (h : s.Nodup) :
    (addSet s x).Nodup := by
  rw [addSet]
  split
  · exact h
  · simp_all [List.nodup_append]

/-- Folding occurrences into a set grows it by at most the number of
occurrences. -/
theorem foldl_addSet_length (l : List String) (s : List String) :
    (l.foldl addSet s).length ≤ s.length + l.length := by
  induction l generalizing s with
  | nil => simp
  | cons x xs ih =>
      calc (xs.foldl addSet (addSet s x)).length
          ≤ (addSet s x).length + xs.length := ih (addSet s x)
        _ ≤ s.length + (x :: xs).length := by
            have := addSet_length_le s x
            simp only [List.length_cons]
            omega

/-- Folding occurrences into a distinct set keeps it distinct. -/
theorem foldl_addSet_nodup (l : List String) {s : List String}
    (h : s.Nodup) : (l.foldl addSet s).Nodup := by
  induction l generalizing s with
  | nil => exact h
  | cons x xs ih => exact ih (addSet_nodup x h)

/-- Conditionally adding an occurrence grows a set by at most one when
the occurrence is present. -/
theorem addOcc_length_le (s : List String) (o : Option String) :
    (addOcc s o).length
      ≤ s.length + (match o with | some _ => 1 | none => 0) := by
  cases o
  · simp [addOcc]
  · exact addSet_length_le s _

/-- Conditionally adding an occurrence preserves distinctness. -/
theorem addOcc_nodup {s : List String} (o : Option String)
    (h : s.Nodup) : (addOcc s o).Nodup := by
  cases o
  · exact h
  · exact addSet_nodup _ h

/-- C9: the deduplicated color set never exceeds the number of solid
fill/stroke color occurrences (root occurrences plus one per solid-filled
descendant), the typography set never exceeds the number of text-style
occurrences, and both sets are duplicate-free. -/
theorem c9_dedup_bounds (n : FNode) :
    (buildSpecs n).colors.length
        ≤ rootColorOccCount n.data
          + ((preFlat 0 n.children).filterMap fun p => fillColorOcc p.2.data).length
    ∧ (buildSpecs n).colors.Nodup
    ∧ (buildSpecs n).typography.length
        ≤ ((preFlat 0 n.children).filterMap fun p => typoOcc p.2.data).length
    ∧ (buildSpecs n).typography.Nodup := by
  have hbase_len : (baseSpecs n.data).colors.length ≤ rootColorOccCount n.data := by
    have hcols : (baseSpecs n.data).colors
        = addOcc (addOcc [] (fillColorOcc n.data)) (strokeColorOcc n.data) := rfl
    rw [hcols, rootColorOccCount]
    rcases fillColorOcc n.data with _ | x <;> rcases strokeColorOcc n.data with _ | y
    · simp [addOcc]
    · simp [addOcc, addSet]
    · simp [addOcc, addSet]
    · simp only [addOcc, addSet, List.not_mem_nil, if_false, List.nil_append]
      split <;> simp
  have hbase_nodup : (baseSpecs n.data).colors.Nodup :=
    addOcc_nodup _ (addOcc_nodup _ List.nodup_nil)
  rw [buildSpecs, traverseList_eq]
  refine ⟨?_, foldl_addSet_nodup _ hbase_nodup, ?_, foldl_addSet_nodup _ (by simp [baseSpecs])⟩
  · calc (((preFlat 0 n.children).filterMap fun p => fillColorOcc p.2.data).foldl
          addSet (baseSpecs n.data).colors).length
        ≤ (baseSpecs n.data).colors.length
            + ((preFlat 0 n.children).filterMap fun p => fillColorOcc p.2.data).length :=
          foldl_addSet_length _ _
      _ ≤ _ := by have := hbase_len; omega
  · calc (((preFlat 0 n.children).filterMap fun p => typoOcc p.2.data).foldl
          addSet (baseSpecs n.data).typography).length
        ≤ (baseSpecs n.data).typography.length
            + ((preFlat 0 n.children).filterMap fun p => typoOcc p.2.data).length :=
          foldl_addSet_length _ _
      _ ≤ _ := by simp [baseSpecs]

/-- C3: a node ID whose fetch fails is isolated — the batch run over a
list containing it writes exactly the files of the run without it: later
IDs are still processed and no specification file is written for the
failing ID. -/
theorem c3_failed_fetch_isolated (now fileId : String)
    (fetch : String → Except String (Option NodeResp))
    (ids1 ids2 : List String) (badId e : String)
    (h : fetch badId = .error e) :
    runBatch now fileId fetch (ids1 ++ badId :: ids2)
      = runBatch now fileId fetch (ids1 ++ ids2) := by
  have hstep : ∀ st, processNode now fetch st badId = st := by
    intro st
    rw [processNode, h]
  have hfold : (ids1 ++ badId :: ids2).foldl (processNode now fetch) ⟨[], []⟩
      = (ids1 ++ ids2).foldl (processNode now fetch) ⟨[], []⟩ := by
    rw [List.foldl_append, List.foldl_cons, hstep, ← List.foldl_append]
  simp only [runBatch, hfold]

/-- Witness for C3: with a network answering HTTP 403 for the second
hardcoded node ID, the batch over both IDs writes the same files as the
batch over the first alone. -/
theorem c3_failed_fetch_isolated_witness :
    c3Fetch "21:5360" = .error "Figma API error: Forbidden"
    ∧ runBatch "2024-01-01T00:00:00.000Z" "zksBuILVajtp60Oca28Vnl" c3Fetch
        ["21:5359", "21:5360"]
      = runBatch "2024-01-01T00:00:00.000Z" "zksBuILVajtp60Oca28Vnl" c3Fetch
        ["21:5359"] :=
  ⟨rfl,
   c3_failed_fetch_isolated "2024-01-01T00:00:00.000Z" "zksBuILVajtp60Oca28Vnl"
     c3Fetch ["21:5359"] [] "21:5360" "Figma API error: Forbidden" rfl⟩

/-! ## The end-to-end scenario (C1) -/

set_option maxRecDepth 40000

/-- Evaluation of the extractor on the end-to-end scenario's root node. -/
theorem c1_build_eval : buildSpecs c1Root = c1SpecsVal := by
  rw [buildSpecs, traverseList_eq]
  simp only [c1Root, c1Rect, c1Text, FNode.children, FNode.data, preFlat]
  decide

/-- C1 (counterexample): on the claimed scenario the pipeline does yield
two children, but the generated CSS nowhere contains the kebab-case
declarations `font-size: 24px;` or `font-weight: 700;` — the text-style
block uses the JS object keys instead — so no rule block can contain
them. -/
theorem c1_kebab_declarations_absent :
    extractCardSpecs (some ⟨some c1Root⟩) = some (buildSpecs c1Root)
    ∧ (buildSpecs c1Root).children.length = 2
    ∧ containsStr (generateCSSClasses (buildSpecs c1Root)) "font-size: 24px;" = false
    ∧ containsStr (generateCSSClasses (buildSpecs c1Root)) "font-weight: 700;" = false := by
  refine ⟨rfl, ?_, ?_, ?_⟩ <;> rw [c1_build_eval] <;> decide

/-- C1 (amended): the end-to-end scenario yields a specification with two
children, a root rule block containing `border-radius: 16px;`, and a rule
block for the text child (textContent "Balance") containing the literal
declarations `fontSize: 24px;` and `fontWeight: 700;` (the JS
object-key spellings the generator emits). -/
theorem c1_end_to_end_scenario :
    extractCardSpecs (some ⟨some c1Root⟩) = some (buildSpecs c1Root)
    ∧ (buildSpecs c1Root).children.length = 2
    ∧ containsStr (rootBlockCSS (buildSpecs c1Root)) "border-radius: 16px;" = true
    ∧ ((buildSpecs c1Root).children.getD 1 cDefault).textContent = some "Balance"
    ∧ containsStr (childBlockCSS (slugify (buildSpecs c1Root).name)
        ((buildSpecs c1Root).children.getD 1 cDefault)) "fontSize: 24px;" = true
    ∧ containsStr (childBlockCSS (slugify (buildSpecs c1Root).name)
        ((buildSpecs c1Root).children.getD 1 cDefault)) "fontWeight: 700;" = true := by
  refine ⟨rfl, ?_, ?_, ?_, ?_, ?_⟩ <;> rw [c1_build_eval] <;> decide

end Figma
